import Mathlib

/-!
Shallow embedding of the contact-store REST service (`src/app.py`).

The service keeps an in-memory dictionary `CONTACTS : Dict[int, Dict[str, Any]]`
and a counter `NEXT_ID : int` starting at 1.  Three handlers operate on it:

* `create_contact` (POST /contacts): validates the JSON payload via
  `_validate_contact_payload`, assigns `contact_id = NEXT_ID`, increments
  `NEXT_ID`, stores `{"name": payload["name"].strip(), "phone": payload["phone"].strip()}`
  and returns `{"id": contact_id, **record}` with status 201.
* `get_contact` (GET /contacts/<int:id>): `contact = CONTACTS.get(id)`;
  `if not contact: abort(404)`; else returns `{"id": id, **contact}` with 200.
* `delete_contact` (DELETE /contacts/<int:id>): aborts 404 when the id is not a
  key of `CONTACTS`, otherwise `del CONTACTS[id]` and returns 204.

Python dictionaries are embedded as association lists with insert-or-replace
update (`dictInsert`), first-match lookup (`dictLookup`) and key removal
(`dictErase`); Python `str.strip()` is `pyStrip`; JSON request bodies are the
inductive type `Json` (with `Json.null` covering `request.get_json(silent=True)`
returning `None` on a malformed body).
-/

/-- A JSON value, as delivered by `request.get_json(silent=True)`
(`Json.null` also stands for Python `None` on an unparseable body). -/
inductive Json where
  | null
  | bool (b : Bool)
  | num (n : Int)
  | str (s : String)
  | arr (elems : List Json)
  | obj (fields : List (String × Json))

/-- First-match lookup in an association list: `d.get(k)` / `d[k]`. -/
def dictLookup {α β : Type} [DecidableEq α] : List (α × β) → α → Option β
  | [], _ => none
  | (k, v) :: rest, key => if k = key then some v else dictLookup rest key

/-- Python `d[k] = v`: replaces the value at an existing key in place,
otherwise appends the new binding (dicts preserve insertion order). -/
def dictInsert {α β : Type} [DecidableEq α] : List (α × β) → α → β → List (α × β)
  | [], k, v => [(k, v)]
  | (a, b) :: rest, k, v =>
    if a = k then (k, v) :: rest else (a, b) :: dictInsert rest k v

/-- Python `del d[k]`: removes the binding for `k`. -/
def dictErase {α β : Type} [DecidableEq α] (m : List (α × β)) (k : α) :
    List (α × β) :=
  m.filter (fun e => decide (e.1 ≠ k))

/-- The characters stripped by Python `str.strip()` (ASCII whitespace;
the exotic Unicode spaces Python also strips play no role here). -/
def isPySpace (c : Char) : Bool :=
  c = ' ' || c = '\t' || c = '\n' || c = '\r' || c = '\x0b' || c = '\x0c'

/-- Strip leading and trailing whitespace characters from a character list. -/
def stripList (l : List Char) : List Char :=
  ((l.dropWhile isPySpace).reverse.dropWhile isPySpace).reverse

/-- Python `s.strip()`. -/
def pyStrip (s : String) : String :=
  String.mk (stripList s.data)

/-- A stored contact record: the Python value dict `{"name": ..., "phone": ...}`
(kept as a field dictionary so that dict truthiness in `get_contact` is
representable). -/
abbrev Record := List (String × String)

/-- The record stored for a contact: `{"name": n, "phone": ph}`. -/
def recordOf (n ph : String) : Record :=
  [("name", n), ("phone", ph)]

/-- The two error responses the handlers produce via `abort`. -/
inductive Err where
  | validation
  | notFound
deriving Repr, DecidableEq

/-- HTTP status of an error response. -/
def errStatus : Err → Nat
  | .validation => 400
  | .notFound => 404

/-- The module-level mutable state: `CONTACTS` and `NEXT_ID`. -/
structure Store where
  contacts : List (Nat × Record)
  nextId : Nat
deriving Repr, DecidableEq

/-- The fresh state: `CONTACTS = {}`, `NEXT_ID = 1`. -/
def freshStore : Store :=
  { contacts := [], nextId := 1 }

/-- `_validate_contact_payload`: the payload must be a dict, and each of the
fields `"name"` and `"phone"` must be present, be a string, and be non-empty
after `strip()`; any violation aborts with 400. -/
def fieldOk (fields : List (String × Json)) (f : String) : Bool :=
  match dictLookup fields f with
  | some (Json.str s) => !(pyStrip s == "")
  | _ => false

/-- `_validate_contact_payload(payload)` succeeds (does not abort). -/
def validate_contact_payload (payload : Json) : Bool :=
  match payload with
  | Json.obj fields => fieldOk fields "name" && fieldOk fields "phone"
  | _ => false

/-- The string value of a field of an object payload (total helper; only used
under `validate_contact_payload`, which guarantees the field is a string). -/
def strField (payload : Json) (f : String) : String :=
  match payload with
  | Json.obj fields =>
    match dictLookup fields f with
    | some (Json.str s) => s
    | _ => ""
  | _ => ""

/-- `create_contact`: validate, assign `NEXT_ID`, increment it, store the
stripped fields, return `{"id": id, **record}` (201) and the new state. -/
def create_contact (s : Store) (payload : Json) :
    Except Err ((Nat × Record) × Store) :=
  if validate_contact_payload payload then
    let contact_id := s.nextId
    let record := recordOf (pyStrip (strField payload "name"))
      (pyStrip (strField payload "phone"))
    Except.ok ((contact_id, record),
      { contacts := dictInsert s.contacts contact_id record,
        nextId := s.nextId + 1 })
  else
    Except.error Err.validation

/-- `get_contact`: `contact = CONTACTS.get(id)`; `if not contact: abort(404)`
(an absent key and a falsy — empty — record both 404); else `{"id": id, **contact}`. -/
def get_contact (s : Store) (contact_id : Nat) : Except Err (Nat × Record) :=
  match dictLookup s.contacts contact_id with
  | none => Except.error Err.notFound
  | some contact =>
    if contact.isEmpty then Except.error Err.notFound
    else Except.ok (contact_id, contact)

/-- `delete_contact`: 404 when the id is not a key, else `del CONTACTS[id]` (204). -/
def delete_contact (s : Store) (contact_id : Nat) : Except Err Store :=
  if (dictLookup s.contacts contact_id).isSome then
    Except.ok { s with contacts := dictErase s.contacts contact_id }
  else
    Except.error Err.notFound

/-- HTTP status of a create response (201 on success). -/
def createStatus (r : Except Err ((Nat × Record) × Store)) : Nat :=
  match r with
  | Except.ok _ => 201
  | Except.error e => errStatus e

/-- HTTP status of a get response (200 on success). -/
def getStatus (r : Except Err (Nat × Record)) : Nat :=
  match r with
  | Except.ok _ => 200
  | Except.error e => errStatus e

/-- HTTP status of a delete response (204 on success). -/
def deleteStatus (r : Except Err Store) : Nat :=
  match r with
  | Except.ok _ => 204
  | Except.error e => errStatus e

/-- One API request against the store. -/
inductive Op where
  | create (payload : Json)
  | get (contact_id : Nat)
  | delete (contact_id : Nat)

/-- The state after serving one request (a failed request leaves the state as
it was: `abort` raises before any mutation in every handler). -/
def applyOp (s : Store) (o : Op) : Store :=
  match o with
  | Op.create p =>
    match create_contact s p with
    | Except.ok (_, s') => s'
    | Except.error _ => s
  | Op.get _ => s
  | Op.delete contact_id =>
    match delete_contact s contact_id with
    | Except.ok s' => s'
    | Except.error _ => s

/-- The state reached from the fresh store by a sequence of requests. -/
def runOps (ops : List Op) : Store :=
  ops.foldl applyOp freshStore

/-- The ids handed out by the successful creates of a request sequence run
from state `s`, in order. -/
def assignedIds (s : Store) : List Op → List Nat
  | [] => []
  | o :: rest =>
    match o with
    | Op.create p =>
      if validate_contact_payload p then
        s.nextId :: assignedIds (applyOp s o) rest
      else
        assignedIds (applyOp s o) rest
    | _ => assignedIds (applyOp s o) rest

/-- Invariant of every reachable store state: the counter is at least 1, all
stored ids are below the counter and pairwise distinct, and every stored
record is a name/phone dict of stripped, non-empty strings. -/
def StoreInv (s : Store) : Prop :=
  1 ≤ s.nextId ∧
  (s.contacts.map Prod.fst).Nodup ∧
  ∀ e ∈ s.contacts, e.1 < s.nextId ∧
    ∃ n ph, e.2 = recordOf n ph ∧
      pyStrip n = n ∧ n ≠ "" ∧ pyStrip ph = ph ∧ ph ≠ ""

/-- A stored entry whose record is a name/phone dict with non-empty,
non-whitespace-only values. -/
def GoodRecord (e : Nat × Record) : Prop :=
  ∃ n ph, e.2 = recordOf n ph ∧
    n ≠ "" ∧ pyStrip n ≠ "" ∧ ph ≠ "" ∧ pyStrip ph ≠ ""

/-! ### Concrete request fixtures -/

/-- The documented example payload. -/
def pIvan : Json :=
  Json.obj [("name", Json.str "Ivan Petrov"), ("phone", Json.str "+7-999-123-45-67")]

def pAlice : Json := Json.obj [("name", Json.str "Alice"), ("phone", Json.str "111")]

def pBob : Json := Json.obj [("name", Json.str "Bob"), ("phone", Json.str "222")]

def pCarol : Json := Json.obj [("name", Json.str "Carol"), ("phone", Json.str "333")]

/-- Payload with an empty name. -/
def pEmptyName : Json := Json.obj [("name", Json.str ""), ("phone", Json.str "123")]

/-- Payload with a whitespace-only name. -/
def pSpaceName : Json := Json.obj [("name", Json.str "  "), ("phone", Json.str "123")]

def storeAfterIvan : Store := applyOp freshStore (Op.create pIvan)

def storeAfterA : Store := applyOp freshStore (Op.create pAlice)

def storeAfterB : Store := applyOp storeAfterA (Op.create pBob)

def storeAfterDeleteA : Store := applyOp storeAfterB (Op.delete 1)

/-! ### Association-list (Python dict) lemmas -/

theorem dictLookup_insert_self {α β : Type} [DecidableEq α]
    (m : List (α × β)) (k : α) (v : β) :
    dictLookup (dictInsert m k v) k = some v := by
  induction m with
  | nil => simp [dictInsert, dictLookup]
  | cons e rest ih =>
    obtain ⟨a, b⟩ := e
    by_cases hak : a = k
    · simp [dictInsert, dictLookup, hak]
    · simp [dictInsert, dictLookup, hak, ih]

theorem dictLookup_insert_ne {α β : Type} [DecidableEq α]
    (m : List (α × β)) (k k' : α) (v : β) (hne : k' ≠ k) :
    dictLookup (dictInsert m k v) k' = dictLookup m k' := by
  induction m with
  | nil => simp [dictInsert, dictLookup, Ne.symm hne]
  | cons e rest ih =>
    obtain ⟨a, b⟩ := e
    by_cases hak : a = k
    · subst hak
      simp [dictInsert, dictLookup, Ne.symm hne]
    · by_cases hk' : a = k'
      · simp [dictInsert, dictLookup, hak, hk', hne]
      · simp [dictInsert, dictLookup, hak, hk', ih]

theorem dictInsert_eq_append {α β : Type} [DecidableEq α]
    (m : List (α × β)) (k : α) (v : β) (h : dictLookup m k = none) :
    dictInsert m k v = m ++ [(k, v)] := by
  induction m with
  | nil => rfl
  | cons e rest ih =>
    obtain ⟨a, b⟩ := e
    rw [dictLookup] at h
    by_cases hak : a = k
    · simp [hak] at h
    · simp only [hak, if_false] at h
      simp [dictInsert, hak, ih h]

theorem dictLookup_erase_self {α β : Type} [DecidableEq α]
    (m : List (α × β)) (k : α) :
    dictLookup (dictErase m k) k = none := by
  induction m with
  | nil => rfl
  | cons e rest ih =>
    obtain ⟨a, b⟩ := e
    by_cases hak : a = k
    · simpa [dictErase, hak] using ih
    · simpa [dictErase, dictLookup, hak] using ih

theorem dictLookup_erase_ne {α β : Type} [DecidableEq α]
    (m : List (α × β)) (k k' : α) (hne : k' ≠ k) :
    dictLookup (dictErase m k) k' = dictLookup m k' := by
  induction m with
  | nil => rfl
  | cons e rest ih =>
    obtain ⟨a, b⟩ := e
    by_cases hak : a = k
    · subst hak
      simpa [dictErase, dictLookup, Ne.symm hne] using ih
    · by_cases hk' : a = k'
      · simp [dictErase, dictLookup, hak, hk', hne]
      · simpa [dictErase, dictLookup, hak, hk'] using ih

theorem dictErase_of_mem_ne {α β : Type} [DecidableEq α]
    (m : List (α × β)) (k : α) (e : α × β) (he : e ∈ m) (hne : e.1 ≠ k) :
    e ∈ dictErase m k :=
  List.mem_filter.2 ⟨he, by simpa using hne⟩

theorem dictLookup_mem {α β : Type} [DecidableEq α]
    (m : List (α × β)) (k : α) (v : β) (h : dictLookup m k = some v) :
    (k, v) ∈ m := by
  induction m with
  | nil => simp [dictLookup] at h
  | cons e rest ih =>
    obtain ⟨a, b⟩ := e
    rw [dictLookup] at h
    by_cases hak : a = k
    · subst hak
      simp only [if_true] at h
      simp [Option.some.injEq] at h
      simp [h]
    · simp only [hak, if_false] at h
      exact List.mem_cons_of_mem _ (ih h)

theorem mem_dictInsert {α β : Type} [DecidableEq α]
    (m : List (α × β)) (k : α) (v : β) (e : α × β)
    (h : e ∈ dictInsert m k v) : e = (k, v) ∨ e ∈ m := by
  induction m with
  | nil => exact Or.inl (by simpa [dictInsert] using h)
  | cons hd rest ih =>
    obtain ⟨a, b⟩ := hd
    by_cases hak : a = k
    · simp only [dictInsert, hak, if_true] at h
      rcases List.mem_cons.1 h with h' | h'
      · exact Or.inl h'
      · exact Or.inr (List.mem_cons_of_mem _ h')
    · simp only [dictInsert, hak, if_false] at h
      rcases List.mem_cons.1 h with h' | h'
      · exact Or.inr (h' ▸ List.mem_cons_self _ _)
      · rcases ih h' with h'' | h''
        · exact Or.inl h''
        · exact Or.inr (List.mem_cons_of_mem _ h'')

theorem mem_dictErase {α β : Type} [DecidableEq α]
    (m : List (α × β)) (k : α) (e : α × β)
    (h : e ∈ dictErase m k) : e ∈ m :=
  List.mem_of_mem_filter h

theorem dictErase_keys_sublist {α β : Type} [DecidableEq α]
    (m : List (α × β)) (k : α) :
    ((dictErase m k).map Prod.fst).Sublist (m.map Prod.fst) :=
  (List.filter_sublist m).map Prod.fst

/-! ### `str.strip()` lemmas -/

theorem dropWhile_head_false {α : Type} (p : α → Bool) :
    ∀ (l : List α) (a : α) (t : List α), l.dropWhile p = a :: t → p a = false := by
  intro l
  induction l with
  | nil => intro a t h; simp [List.dropWhile] at h
  | cons b s ih =>
    intro a t h
    by_cases hb : p b
    · rw [List.dropWhile_cons_of_pos hb] at h
      exact ih a t h
    · rw [List.dropWhile_cons_of_neg hb] at h
      cases h
      exact Bool.of_not_eq_true hb

theorem dropWhile_length_le {α : Type} (p : α → Bool) (l : List α) :
    (l.dropWhile p).length ≤ l.length := by
  induction l with
  | nil => exact Nat.le_refl _
  | cons b s ih =>
    by_cases hb : p b
    · rw [List.dropWhile_cons_of_pos hb]
      exact Nat.le_trans ih (Nat.le_succ _)
    · rw [List.dropWhile_cons_of_neg hb]

theorem dropWhile_dropWhile {α : Type} (p : α → Bool) (l : List α) :
    (l.dropWhile p).dropWhile p = l.dropWhile p := by
  cases h : l.dropWhile p with
  | nil => rfl
  | cons a t =>
    have ha := dropWhile_head_false p l a t h
    rw [List.dropWhile_cons_of_neg (by simp [ha])]

theorem dropWhile_suffix_exists {α : Type} (p : α → Bool) (l : List α) :
    ∃ t, t ++ l.dropWhile p = l := by
  induction l with
  | nil => exact ⟨[], rfl⟩
  | cons b s ih =>
    by_cases hb : p b
    · obtain ⟨t, ht⟩ := ih
      exact ⟨b :: t, by simp [List.dropWhile_cons_of_pos hb, ht]⟩
    · exact ⟨[], by simp [List.dropWhile_cons_of_neg hb]⟩

theorem dropWhile_eq_self_of_append {α : Type} (p : α → Bool)
    (l r t : List α) (hl : l.dropWhile p = l) (hrt : r ++ t = l) :
    r.dropWhile p = r := by
  cases r with
  | nil => rfl
  | cons a r' =>
    have hla : l = a :: (r' ++ t) := by simp [← hrt]
    have hpa : p a = false := by
      by_cases hp : p a
      · rw [hla, List.dropWhile_cons_of_pos hp] at hl
        have hlen := dropWhile_length_le p (r' ++ t)
        rw [hl] at hlen
        simp at hlen
      · exact Bool.of_not_eq_true hp
    exact List.dropWhile_cons_of_neg (by simp [hpa])

theorem stripList_dropWhile (l : List Char) :
    (stripList l).dropWhile isPySpace = stripList l := by
  unfold stripList
  set l₁ := l.dropWhile isPySpace with hl₁
  have hidem : l₁.dropWhile isPySpace = l₁ := by
    rw [hl₁]; exact dropWhile_dropWhile isPySpace l
  obtain ⟨t, ht⟩ := dropWhile_suffix_exists isPySpace l₁.reverse
  have hsplit : (l₁.reverse.dropWhile isPySpace).reverse ++ t.reverse = l₁ := by
    have := congrArg List.reverse ht
    simpa using this
  exact dropWhile_eq_self_of_append isPySpace l₁ _ t.reverse hidem hsplit

theorem stripList_idem (l : List Char) :
    stripList (stripList l) = stripList l := by
  have h₁ : (stripList l).dropWhile isPySpace = stripList l := stripList_dropWhile l
  show ((((stripList l).dropWhile isPySpace).reverse.dropWhile isPySpace).reverse) = stripList l
  rw [h₁]
  have h₂ : (stripList l).reverse = (l.dropWhile isPySpace).reverse.dropWhile isPySpace := by
    simp [stripList]
  rw [h₂, dropWhile_dropWhile, ← h₂, List.reverse_reverse]

theorem pyStrip_idem (s : String) : pyStrip (pyStrip s) = pyStrip s := by
  show String.mk (stripList (String.mk (stripList s.data)).data) = pyStrip s
  rw [show (String.mk (stripList s.data)).data = stripList s.data from rfl,
    stripList_idem]
  rfl

/-! ### The reachability invariant -/

theorem fieldOk_strip (fields : List (String × Json)) (f : String)
    (h : fieldOk fields f = true) :
    ∃ s, dictLookup fields f = some (Json.str s) ∧ pyStrip s ≠ "" := by
  unfold fieldOk at h
  cases hl : dictLookup fields f with
  | none => rw [hl] at h; cases h
  | some v =>
    rw [hl] at h
    cases v with
    | str s => exact ⟨s, rfl, by simpa using h⟩
    | null => cases h
    | bool b => cases h
    | num n => cases h
    | arr elems => cases h
    | obj fs => cases h

theorem validate_obj (p : Json) (h : validate_contact_payload p = true) :
    ∃ fields, p = Json.obj fields ∧
      fieldOk fields "name" = true ∧ fieldOk fields "phone" = true := by
  cases p with
  | obj fields =>
    exact ⟨fields, rfl, by simpa [validate_contact_payload] using h⟩
  | null => cases h
  | bool b => cases h
  | num n => cases h
  | str s => cases h
  | arr elems => cases h

theorem validate_strips (p : Json) (h : validate_contact_payload p = true) :
    pyStrip (strField p "name") ≠ "" ∧ pyStrip (strField p "phone") ≠ "" := by
  obtain ⟨fields, rfl, h1, h2⟩ := validate_obj p h
  obtain ⟨n, hn, hn'⟩ := fieldOk_strip fields "name" h1
  obtain ⟨ph, hp, hp'⟩ := fieldOk_strip fields "phone" h2
  constructor
  · simpa [strField, hn] using hn'
  · simpa [strField, hp] using hp'

theorem dictLookup_none_of_bound (m : List (Nat × Record)) (k : Nat)
    (h : ∀ e ∈ m, e.1 < k) : dictLookup m k = none := by
  cases hl : dictLookup m k with
  | none => rfl
  | some v =>
    have := h (k, v) (dictLookup_mem m k v hl)
    exact absurd this (Nat.lt_irrefl k)

theorem create_contact_valid (s : Store) (p : Json)
    (h : validate_contact_payload p = true) :
    create_contact s p = Except.ok
      ((s.nextId, recordOf (pyStrip (strField p "name")) (pyStrip (strField p "phone"))),
       { contacts := dictInsert s.contacts s.nextId
           (recordOf (pyStrip (strField p "name")) (pyStrip (strField p "phone"))),
         nextId := s.nextId + 1 }) := by
  simp [create_contact, h]

theorem create_contact_invalid (s : Store) (p : Json)
    (h : validate_contact_payload p = false) :
    create_contact s p = Except.error Err.validation := by
  simp [create_contact, h]

theorem applyOp_create_valid (s : Store) (p : Json)
    (h : validate_contact_payload p = true) :
    applyOp s (Op.create p) =
      { contacts := dictInsert s.contacts s.nextId
          (recordOf (pyStrip (strField p "name")) (pyStrip (strField p "phone"))),
        nextId := s.nextId + 1 } := by
  simp [applyOp, create_contact_valid s p h]

theorem applyOp_create_invalid (s : Store) (p : Json)
    (h : validate_contact_payload p = false) :
    applyOp s (Op.create p) = s := by
  simp [applyOp, create_contact_invalid s p h]

theorem StoreInv_applyOp (s : Store) (o : Op) (h : StoreInv s) :
    StoreInv (applyOp s o) := by
  obtain ⟨h1, h2, h3⟩ := h
  cases o with
  | get contact_id => exact ⟨h1, h2, h3⟩
  | create p =>
    cases hv : validate_contact_payload p with
    | false => rw [applyOp_create_invalid s p hv]; exact ⟨h1, h2, h3⟩
    | true =>
      rw [applyOp_create_valid s p hv]
      have hnone : dictLookup s.contacts s.nextId = none :=
        dictLookup_none_of_bound s.contacts s.nextId (fun e he => (h3 e he).1)
      rw [dictInsert_eq_append s.contacts s.nextId _ hnone]
      refine ⟨Nat.le_succ_of_le h1, ?_, ?_⟩
      · rw [List.map_append]
        rw [List.nodup_append]
        refine ⟨h2, List.nodup_singleton _, ?_⟩
        intro a ha ha'
        simp only [List.map_cons, List.map_nil, List.mem_singleton] at ha'
        subst ha'
        obtain ⟨e, he, he'⟩ := List.mem_map.1 ha
        exact absurd (he' ▸ (h3 e he).1) (Nat.lt_irrefl _)
      · intro e he
        rcases List.mem_append.1 he with he' | he'
        · obtain ⟨hlt, n, ph, hr⟩ := h3 e he'
          exact ⟨Nat.lt_succ_of_lt hlt, n, ph, hr⟩
        · rw [List.mem_singleton] at he'
          subst he'
          obtain ⟨hname, hphone⟩ := validate_strips p hv
          refine ⟨Nat.lt_succ_self _, pyStrip (strField p "name"),
            pyStrip (strField p "phone"), rfl, pyStrip_idem _, hname,
            pyStrip_idem _, hphone⟩
  | delete contact_id =>
    cases hl : (dictLookup s.contacts contact_id).isSome with
    | false =>
      simp only [applyOp, delete_contact, hl, Bool.false_eq_true, if_false]
      exact ⟨h1, h2, h3⟩
    | true =>
      simp only [applyOp, delete_contact, hl, if_true]
      refine ⟨h1, ?_, ?_⟩
      · exact List.Nodup.sublist (dictErase_keys_sublist s.contacts contact_id) h2
      · intro e he
        exact h3 e (mem_dictErase s.contacts contact_id e he)

theorem StoreInv_fresh : StoreInv freshStore := by
  refine ⟨Nat.le_refl 1, List.nodup_nil, ?_⟩
  intro e he
  cases he

theorem StoreInv_foldl (ops : List Op) :
    ∀ s : Store, StoreInv s → StoreInv (ops.foldl applyOp s) := by
  induction ops with
  | nil => intro s hs; exact hs
  | cons o rest ih =>
    intro s hs
    exact ih (applyOp s o) (StoreInv_applyOp s o hs)

theorem StoreInv_runOps (ops : List Op) : StoreInv (runOps ops) :=
  StoreInv_foldl ops freshStore StoreInv_fresh

/-! ### Counter monotonicity and the assigned-id trace -/

theorem applyOp_nextId_le (s : Store) (o : Op) :
    s.nextId ≤ (applyOp s o).nextId := by
  cases o with
  | get contact_id => exact Nat.le_refl _
  | create p =>
    cases hv : validate_contact_payload p with
    | false => rw [applyOp_create_invalid s p hv]
    | true => rw [applyOp_create_valid s p hv]; exact Nat.le_succ _
  | delete contact_id =>
    cases hl : (dictLookup s.contacts contact_id).isSome with
    | false => simp [applyOp, delete_contact, hl]
    | true => simp [applyOp, delete_contact, hl]

theorem foldl_nextId_le (ops : List Op) :
    ∀ s : Store, s.nextId ≤ (ops.foldl applyOp s).nextId := by
  induction ops with
  | nil => intro s; exact Nat.le_refl _
  | cons o rest ih =>
    intro s
    exact Nat.le_trans (applyOp_nextId_le s o) (ih (applyOp s o))

theorem le_of_mem_assignedIds (ops : List Op) :
    ∀ (s : Store) (x : Nat), x ∈ assignedIds s ops → s.nextId ≤ x := by
  induction ops with
  | nil => intro s x hx; cases hx
  | cons o rest ih =>
    intro s x hx
    cases o with
    | create p =>
      cases hv : validate_contact_payload p with
      | false =>
        rw [assignedIds, hv] at hx
        simp only [Bool.false_eq_true, if_false] at hx
        exact Nat.le_trans (applyOp_nextId_le s _) (ih _ x hx)
      | true =>
        rw [assignedIds, hv] at hx
        simp only [if_true] at hx
        rcases List.mem_cons.1 hx with h' | h'
        · exact Nat.le_of_eq h'.symm
        · exact Nat.le_trans (applyOp_nextId_le s _) (ih _ x h')
    | get contact_id =>
      exact Nat.le_trans (applyOp_nextId_le s _) (ih _ x hx)
    | delete contact_id =>
      exact Nat.le_trans (applyOp_nextId_le s _) (ih _ x hx)

theorem assignedIds_pairwise_lt (ops : List Op) :
    ∀ s : Store, (assignedIds s ops).Pairwise (· < ·) := by
  induction ops with
  | nil => intro s; exact List.Pairwise.nil
  | cons o rest ih =>
    intro s
    cases o with
    | create p =>
      cases hv : validate_contact_payload p with
      | false =>
        rw [assignedIds, hv]
        simpa using ih (applyOp s (Op.create p))
      | true =>
        rw [assignedIds, hv]
        simp only [if_true]
        refine List.pairwise_cons.2 ⟨?_, ih _⟩
        intro x hx
        have hle := le_of_mem_assignedIds rest _ x hx
        rw [applyOp_create_valid s p hv] at hle
        exact Nat.lt_of_succ_le hle
    | get contact_id => exact ih _
    | delete contact_id => exact ih _

/-! ### The claims -/

/-- Claim C2: for every payload whose name and phone fields are strings that
are non-empty after trimming, a successful create followed immediately by get
on the returned id yields exactly that id together with the name and phone
stripped of leading and trailing whitespace. -/
theorem create_get_round_trip (s : Store) (fields : List (String × Json))
    (name phone : String)
    (hn : dictLookup fields "name" = some (Json.str name))
    (hp : dictLookup fields "phone" = some (Json.str phone))
    (hn' : pyStrip name ≠ "") (hp' : pyStrip phone ≠ "") :
    ∃ s', create_contact s (Json.obj fields) =
        Except.ok ((s.nextId, recordOf (pyStrip name) (pyStrip phone)), s') ∧
      get_contact s' s.nextId =
        Except.ok (s.nextId, recordOf (pyStrip name) (pyStrip phone)) := by
  have hv : validate_contact_payload (Json.obj fields) = true := by
    simp [validate_contact_payload, fieldOk, hn, hp, hn', hp']
  have hsn : strField (Json.obj fields) "name" = name := by simp [strField, hn]
  have hsp : strField (Json.obj fields) "phone" = phone := by simp [strField, hp]
  refine ⟨Store.mk (dictInsert s.contacts s.nextId
      (recordOf (pyStrip name) (pyStrip phone))) (s.nextId + 1), ?_, ?_⟩
  · have h := create_contact_valid s (Json.obj fields) hv
    rw [hsn, hsp] at h
    exact h
  · simp [get_contact, dictLookup_insert_self, recordOf]

theorem create_get_round_trip_witness :
    ∃ s', create_contact freshStore
        (Json.obj [("name", Json.str " Ivan Petrov "), ("phone", Json.str "+7-999-123-45-67")]) =
        Except.ok ((freshStore.nextId,
          recordOf (pyStrip " Ivan Petrov ") (pyStrip "+7-999-123-45-67")), s') ∧
      get_contact s' freshStore.nextId =
        Except.ok (freshStore.nextId,
          recordOf (pyStrip " Ivan Petrov ") (pyStrip "+7-999-123-45-67")) :=
  create_get_round_trip freshStore
    [("name", Json.str " Ivan Petrov "), ("phone", Json.str "+7-999-123-45-67")]
    " Ivan Petrov " "+7-999-123-45-67" rfl rfl (by decide) (by decide)

/-- Claim C4: for every id, get and delete fail with `NotFoundError`
(HTTP 404) whenever no contact with that id is currently in the store, and
delete followed immediately by get always fails with `NotFoundError`. -/
theorem get_delete_not_found (s : Store) (contact_id : Nat) :
    (dictLookup s.contacts contact_id = none →
      get_contact s contact_id = Except.error Err.notFound ∧
      delete_contact s contact_id = Except.error Err.notFound ∧
      getStatus (get_contact s contact_id) = 404 ∧
      deleteStatus (delete_contact s contact_id) = 404) ∧
    ∀ s', delete_contact s contact_id = Except.ok s' →
      get_contact s' contact_id = Except.error Err.notFound := by
  constructor
  · intro h
    have hg : get_contact s contact_id = Except.error Err.notFound := by
      simp [get_contact, h]
    have hd : delete_contact s contact_id = Except.error Err.notFound := by
      simp [delete_contact, h]
    exact ⟨hg, hd, by rw [hg]; rfl, by rw [hd]; rfl⟩
  · intro s' h
    unfold delete_contact at h
    cases hl : (dictLookup s.contacts contact_id).isSome with
    | true =>
      simp only [hl, if_true] at h
      cases h
      simp [get_contact, dictLookup_erase_self]
    | false =>
      simp only [hl, Bool.false_eq_true, if_false] at h
      exact Except.noConfusion h

theorem get_delete_not_found_witness :
    get_contact freshStore 7 = Except.error Err.notFound ∧
    get_contact { contacts := [], nextId := 2 } 1 = Except.error Err.notFound :=
  ⟨((get_delete_not_found freshStore 7).1 rfl).1,
   (get_delete_not_found storeAfterA 1).2 { contacts := [], nextId := 2 } rfl⟩

/-- Claim C7: from the fresh store, create A, create B, delete A, get A,
get B, create C behaves as: A gets id 1, B gets id 2, deleting A succeeds
(204), get A fails with 404, get B succeeds with id 2 and B's fields
unchanged, and create C gets id 3 (not 1). -/
theorem sequential_scenario :
    create_contact freshStore pAlice =
      Except.ok ((1, recordOf "Alice" "111"), storeAfterA) ∧
    create_contact storeAfterA pBob =
      Except.ok ((2, recordOf "Bob" "222"), storeAfterB) ∧
    delete_contact storeAfterB 1 = Except.ok storeAfterDeleteA ∧
    deleteStatus (delete_contact storeAfterB 1) = 204 ∧
    get_contact storeAfterDeleteA 1 = Except.error Err.notFound ∧
    getStatus (get_contact storeAfterDeleteA 1) = 404 ∧
    get_contact storeAfterDeleteA 2 = Except.ok (2, recordOf "Bob" "222") ∧
    create_contact storeAfterDeleteA pCarol =
      Except.ok ((3, recordOf "Carol" "333"),
        applyOp storeAfterDeleteA (Op.create pCarol)) :=
  ⟨rfl, rfl, rfl, rfl, rfl, rfl, rfl, rfl⟩

/-- Claim C8: on a fresh store, create with `{"name": "Ivan Petrov",
"phone": "+7-999-123-45-67"}` succeeds with status 201 and id 1, and
get(1) then returns exactly that record. -/
theorem create_ivan_round_trip :
    createStatus (create_contact freshStore pIvan) = 201 ∧
    create_contact freshStore pIvan =
      Except.ok ((1, recordOf "Ivan Petrov" "+7-999-123-45-67"), storeAfterIvan) ∧
    get_contact storeAfterIvan 1 =
      Except.ok (1, recordOf "Ivan Petrov" "+7-999-123-45-67") ∧
    getStatus (get_contact storeAfterIvan 1) = 200 :=
  ⟨rfl, rfl, rfl, rfl⟩

/-- Claim C9: a create that fails validation leaves the contact store and the
id counter unchanged, so any later request behaves as if the failed attempt
never happened. -/
theorem failed_create_state_unchanged (s : Store) (p : Json)
    (h : create_contact s p = Except.error Err.validation) :
    applyOp s (Op.create p) = s ∧
    ∀ q : Json, create_contact (applyOp s (Op.create p)) q = create_contact s q := by
  cases hv : validate_contact_payload p with
  | true => rw [create_contact_valid s p hv] at h; cases h
  | false =>
    have hs := applyOp_create_invalid s p hv
    exact ⟨hs, fun q => by rw [hs]⟩

theorem failed_create_state_unchanged_witness :
    applyOp freshStore (Op.create pEmptyName) = freshStore :=
  (failed_create_state_unchanged freshStore pEmptyName rfl).1

/-- Claim C1: over any request sequence from the fresh store, the ids handed
out by successful creates strictly increase (each is strictly greater than
every id assigned before it), the ids of currently stored contacts are
pairwise distinct, and an id whose contact was deleted is never assigned
again by a later create. -/
theorem ids_strictly_increasing_unique_never_reused (ops : List Op) :
    (assignedIds freshStore ops).Pairwise (· < ·) ∧
    ((runOps ops).contacts.map Prod.fst).Nodup ∧
    ∀ (l₁ : List Op) (contact_id : Nat) (l₂ : List Op),
      ops = l₁ ++ Op.delete contact_id :: l₂ →
      deleteStatus (delete_contact (runOps l₁) contact_id) = 204 →
      contact_id ∉ assignedIds (runOps (l₁ ++ [Op.delete contact_id])) l₂ := by
  refine ⟨assignedIds_pairwise_lt ops freshStore, (StoreInv_runOps ops).2.1, ?_⟩
  intro l₁ contact_id l₂ hops hdel hmem
  have hsome : (dictLookup (runOps l₁).contacts contact_id).isSome = true := by
    cases hl : (dictLookup (runOps l₁).contacts contact_id).isSome with
    | true => rfl
    | false =>
      simp [delete_contact, hl, deleteStatus, errStatus] at hdel
  obtain ⟨v, hv⟩ := Option.isSome_iff_exists.1 hsome
  have hmem' : (contact_id, v) ∈ (runOps l₁).contacts :=
    dictLookup_mem _ _ _ hv
  have hlt : contact_id < (runOps l₁).nextId :=
    ((StoreInv_runOps l₁).2.2 _ hmem').1
  have hrun : runOps (l₁ ++ [Op.delete contact_id]) =
      applyOp (runOps l₁) (Op.delete contact_id) := by
    rw [runOps, List.foldl_append]
    rfl
  have hge : (runOps l₁).nextId ≤
      (runOps (l₁ ++ [Op.delete contact_id])).nextId := by
    rw [hrun]
    exact applyOp_nextId_le _ _
  have hx := le_of_mem_assignedIds l₂ _ contact_id hmem
  omega

theorem ids_strictly_increasing_unique_never_reused_witness :
    1 ∉ assignedIds (runOps ([Op.create pAlice, Op.create pBob] ++ [Op.delete 1]))
      [Op.create pCarol] :=
  (ids_strictly_increasing_unique_never_reused
      ([Op.create pAlice, Op.create pBob] ++ Op.delete 1 :: [Op.create pCarol])).2.2
    [Op.create pAlice, Op.create pBob] 1 [Op.create pCarol] rfl rfl

/-- Claim C5: in every state reachable by requests from the fresh store, the
name and phone of every stored contact are non-empty, non-whitespace-only
strings, and every operation preserves this property. -/
theorem stored_fields_nonempty (ops : List Op) :
    (∀ e ∈ (runOps ops).contacts, GoodRecord e) ∧
    ∀ (s : Store) (o : Op), (∀ e ∈ s.contacts, GoodRecord e) →
      ∀ e ∈ (applyOp s o).contacts, GoodRecord e := by
  constructor
  · intro e he
    obtain ⟨-, -, h3⟩ := StoreInv_runOps ops
    obtain ⟨-, n, ph, hr, hsn, hn, hsp, hp⟩ := h3 e he
    exact ⟨n, ph, hr, hn, by rw [hsn]; exact hn, hp, by rw [hsp]; exact hp⟩
  · intro s o hgood e he
    cases o with
    | get contact_id => exact hgood e he
    | delete contact_id =>
      cases hl : (dictLookup s.contacts contact_id).isSome with
      | true =>
        simp only [applyOp, delete_contact, hl, if_true] at he
        exact hgood e (mem_dictErase _ _ _ he)
      | false =>
        simp only [applyOp, delete_contact, hl, Bool.false_eq_true, if_false] at he
        exact hgood e he
    | create p =>
      cases hv : validate_contact_payload p with
      | false =>
        rw [applyOp_create_invalid s p hv] at he
        exact hgood e he
      | true =>
        rw [applyOp_create_valid s p hv] at he
        rcases mem_dictInsert _ _ _ _ he with h' | h'
        · subst h'
          obtain ⟨hn, hp⟩ := validate_strips p hv
          exact ⟨pyStrip (strField p "name"), pyStrip (strField p "phone"), rfl,
            hn, by rw [pyStrip_idem]; exact hn,
            hp, by rw [pyStrip_idem]; exact hp⟩
        · exact hgood e h'

theorem stored_fields_nonempty_witness :
    GoodRecord (1, recordOf "Alice" "111") ∧
    GoodRecord (1, recordOf "Ivan Petrov" "+7-999-123-45-67") :=
  ⟨(stored_fields_nonempty [Op.create pAlice]).1 (1, recordOf "Alice" "111")
      (by decide),
   (stored_fields_nonempty []).2 freshStore (Op.create pIvan)
      (fun e he => absurd he (List.not_mem_nil e))
      (1, recordOf "Ivan Petrov" "+7-999-123-45-67") (by decide)⟩

/-- Claim C6: in any reachable state, a successful create appends exactly one
new record and modifies no existing one, a successful delete removes exactly
the record with the given id and leaves every other binding and the counter
behaviour intact, and get modifies nothing. -/
theorem frame_properties (ops : List Op) :
    (∀ (p : Json) (resp : Nat × Record) (s' : Store),
      create_contact (runOps ops) p = Except.ok (resp, s') →
      s'.contacts = (runOps ops).contacts ++ [(resp.1, resp.2)] ∧
      s'.nextId = (runOps ops).nextId + 1) ∧
    (∀ (contact_id : Nat) (s' : Store),
      delete_contact (runOps ops) contact_id = Except.ok s' →
      dictLookup s'.contacts contact_id = none ∧
      (∀ k, k ≠ contact_id →
        dictLookup s'.contacts k = dictLookup (runOps ops).contacts k) ∧
      s'.nextId = (runOps ops).nextId) ∧
    ∀ contact_id, applyOp (runOps ops) (Op.get contact_id) = runOps ops := by
  refine ⟨?_, ?_, fun _ => rfl⟩
  · intro p resp s' h
    cases hv : validate_contact_payload p with
    | false =>
      rw [create_contact_invalid _ p hv] at h
      exact Except.noConfusion h
    | true =>
      rw [create_contact_valid _ p hv] at h
      injection h with h1
      injection h1 with h2 h3
      subst h2
      subst h3
      have hnone : dictLookup (runOps ops).contacts (runOps ops).nextId = none :=
        dictLookup_none_of_bound _ _
          (fun e he => ((StoreInv_runOps ops).2.2 e he).1)
      exact ⟨by rw [dictInsert_eq_append _ _ _ hnone], rfl⟩
  · intro contact_id s' h
    unfold delete_contact at h
    cases hl : (dictLookup (runOps ops).contacts contact_id).isSome with
    | false =>
      simp only [hl, Bool.false_eq_true, if_false] at h
      exact Except.noConfusion h
    | true =>
      simp only [hl, if_true] at h
      injection h with h1
      subst h1
      exact ⟨dictLookup_erase_self _ _,
        fun k hk => dictLookup_erase_ne _ _ _ hk, rfl⟩

theorem frame_properties_witness :
    storeAfterB.contacts =
      (runOps [Op.create pAlice]).contacts ++ [(2, recordOf "Bob" "222")] ∧
    dictLookup (Store.mk [(2, recordOf "Bob" "222")] 3).contacts 1 = none ∧
    applyOp (runOps [Op.create pAlice]) (Op.get 5) = runOps [Op.create pAlice] :=
  ⟨((frame_properties [Op.create pAlice]).1 pBob
      (2, recordOf "Bob" "222") storeAfterB rfl).1,
   ((frame_properties [Op.create pAlice, Op.create pBob]).2.1 1
      (Store.mk [(2, recordOf "Bob" "222")] 3) rfl).1,
   (frame_properties [Op.create pAlice]).2.2 5⟩

/-- Claim C10: in every reachable state each stored record is a non-empty
mapping, so the truthiness check in get never misfires for a stored contact:
get fails with 404 exactly when the id is not a key of the store. -/
theorem get_not_found_iff_absent (ops : List Op) :
    (∀ e ∈ (runOps ops).contacts, e.2.isEmpty = false) ∧
    ∀ contact_id : Nat,
      (get_contact (runOps ops) contact_id = Except.error Err.notFound ↔
       dictLookup (runOps ops).contacts contact_id = none) := by
  have hrec : ∀ e ∈ (runOps ops).contacts, e.2.isEmpty = false := by
    intro e he
    obtain ⟨-, -, h3⟩ := StoreInv_runOps ops
    obtain ⟨-, n, ph, hr, -⟩ := h3 e he
    rw [hr]
    rfl
  refine ⟨hrec, ?_⟩
  intro contact_id
  constructor
  · intro h
    cases hl : dictLookup (runOps ops).contacts contact_id with
    | none => rfl
    | some r =>
      have hne := hrec (contact_id, r) (dictLookup_mem _ _ _ hl)
      simp only [get_contact, hl] at h
      rw [show r.isEmpty = false from hne] at h
      simp only [Bool.false_eq_true, if_false] at h
      exact Except.noConfusion h
  · intro h
    simp [get_contact, h]

theorem get_not_found_iff_absent_witness :
    get_contact (runOps [Op.create pAlice, Op.delete 1]) 1 =
      Except.error Err.notFound :=
  ((get_not_found_iff_absent [Op.create pAlice, Op.delete 1]).2 1).2 rfl

theorem create_error_iff (s : Store) (p : Json) :
    create_contact s p = Except.error Err.validation ↔
      validate_contact_payload p = false := by
  cases hv : validate_contact_payload p with
  | true =>
    rw [create_contact_valid s p hv]
    simp
  | false =>
    rw [create_contact_invalid s p hv]
    simp

theorem fieldOk_false_iff (fields : List (String × Json)) (f : String) :
    fieldOk fields f = false ↔
      dictLookup fields f = none ∨
      (∃ v, dictLookup fields f = some v ∧ ∀ s0, v ≠ Json.str s0) ∨
      (∃ s0, dictLookup fields f = some (Json.str s0) ∧ pyStrip s0 = "") := by
  unfold fieldOk
  cases hl : dictLookup fields f with
  | none => simp
  | some v =>
    cases v with
    | str s0 =>
      constructor
      · intro h
        refine Or.inr (Or.inr ⟨s0, rfl, ?_⟩)
        simpa using h
      · rintro (h | ⟨v, hv, hne⟩ | ⟨s1, hs1, hstrip⟩)
        · exact Option.noConfusion h
        · exact absurd (Option.some.inj hv).symm (hne s0)
        · have hss : s0 = s1 := by
            have := Option.some.inj hs1
            injection this
          subst hss
          simp [hstrip]
    | null =>
      exact ⟨fun _ => Or.inr (Or.inl ⟨Json.null, rfl, fun s0 h => Json.noConfusion h⟩),
        fun _ => rfl⟩
    | bool b =>
      exact ⟨fun _ => Or.inr (Or.inl ⟨Json.bool b, rfl, fun s0 h => Json.noConfusion h⟩),
        fun _ => rfl⟩
    | num n =>
      exact ⟨fun _ => Or.inr (Or.inl ⟨Json.num n, rfl, fun s0 h => Json.noConfusion h⟩),
        fun _ => rfl⟩
    | arr elems =>
      exact ⟨fun _ => Or.inr (Or.inl ⟨Json.arr elems, rfl, fun s0 h => Json.noConfusion h⟩),
        fun _ => rfl⟩
    | obj fs =>
      exact ⟨fun _ => Or.inr (Or.inl ⟨Json.obj fs, rfl, fun s0 h => Json.noConfusion h⟩),
        fun _ => rfl⟩

/-- Claim C3: create fails with `ValidationError` (HTTP 400) exactly when the
payload is not a dict, or the name or phone field is absent, or a field value
is not a string, or a field value is empty after trimming whitespace; in
particular an empty name and a whitespace-only name both fail. -/
theorem create_validation_iff :
    (∀ (s : Store) (p : Json),
      create_contact s p = Except.error Err.validation ↔
      ((∀ fields, p ≠ Json.obj fields) ∨
       (∃ fields, p = Json.obj fields ∧
         (dictLookup fields "name" = none ∨
          dictLookup fields "phone" = none ∨
          (∃ v, dictLookup fields "name" = some v ∧ ∀ s0, v ≠ Json.str s0) ∨
          (∃ v, dictLookup fields "phone" = some v ∧ ∀ s0, v ≠ Json.str s0) ∨
          (∃ s0, dictLookup fields "name" = some (Json.str s0) ∧ pyStrip s0 = "") ∨
          (∃ s0, dictLookup fields "phone" = some (Json.str s0) ∧ pyStrip s0 = ""))))) ∧
    create_contact freshStore pEmptyName = Except.error Err.validation ∧
    createStatus (create_contact freshStore pEmptyName) = 400 ∧
    create_contact freshStore pSpaceName = Except.error Err.validation ∧
    createStatus (create_contact freshStore pSpaceName) = 400 := by
  refine ⟨?_, rfl, rfl, rfl, rfl⟩
  intro s p
  rw [create_error_iff]
  cases p
  case obj fields =>
    have hval : validate_contact_payload (Json.obj fields) = false ↔
        fieldOk fields "name" = false ∨ fieldOk fields "phone" = false := by
      cases hA : fieldOk fields "name" <;> cases hB : fieldOk fields "phone" <;>
        simp [validate_contact_payload, hA, hB]
    rw [hval, fieldOk_false_iff, fieldOk_false_iff]
    constructor
    · rintro ((h | h | h) | (h | h | h))
      · exact Or.inr ⟨fields, rfl, Or.inl h⟩
      · exact Or.inr ⟨fields, rfl, Or.inr (Or.inr (Or.inl h))⟩
      · exact Or.inr ⟨fields, rfl, Or.inr (Or.inr (Or.inr (Or.inr (Or.inl h))))⟩
      · exact Or.inr ⟨fields, rfl, Or.inr (Or.inl h)⟩
      · exact Or.inr ⟨fields, rfl, Or.inr (Or.inr (Or.inr (Or.inl h)))⟩
      · exact Or.inr ⟨fields, rfl, Or.inr (Or.inr (Or.inr (Or.inr (Or.inr h))))⟩
    · rintro (h | ⟨fields', heq, h⟩)
      · exact absurd rfl (h fields)
      · injection heq with hf
        subst hf
        rcases h with h | h | h | h | h | h
        · exact Or.inl (Or.inl h)
        · exact Or.inr (Or.inl h)
        · exact Or.inl (Or.inr (Or.inl h))
        · exact Or.inr (Or.inr (Or.inl h))
        · exact Or.inl (Or.inr (Or.inr h))
        · exact Or.inr (Or.inr (Or.inr h))
  all_goals
    exact ⟨fun _ => Or.inl (fun fields h => Json.noConfusion h), fun _ => rfl⟩

theorem create_validation_iff_witness :
    create_contact freshStore (Json.str "oops") = Except.error Err.validation :=
  (create_validation_iff.1 freshStore (Json.str "oops")).2
    (Or.inl (fun _ h => Json.noConfusion h))
